import Mathlib

/-!
Verification development for the Ollama Indonesian dictionary-definition
generator (`ollama_generation_code.py`).  Strings are modelled as `List Char`
(the character sequence of a Python `str`); HTTP traffic is modelled by
explicit outcome values supplied by the environment.
-/

namespace OllamaGen

/-- The ASCII whitespace characters recognised by the Python regex class `\s`
and by `str.strip` (space, tab, newline, carriage return, vertical tab,
form feed). -/
def isPySpace (c : Char) : Bool :=
  c == ' ' || c == '\t' || c == '\n' || c == '\r' || c == '\x0b' || c == '\x0c'

/-- Python `str.lstrip()`: drop leading whitespace. -/
def lstrip (s : List Char) : List Char := s.dropWhile isPySpace

/-- Python `str.rstrip()`: drop trailing whitespace. -/
def rstrip (s : List Char) : List Char := (s.reverse.dropWhile isPySpace).reverse

/-- Python `str.strip()`: drop leading and trailing whitespace. -/
def strip (s : List Char) : List Char := rstrip (lstrip s)

/-- Python `str.lower()` (ASCII model, matching `re.IGNORECASE` on ASCII). -/
def lowerStr (s : List Char) : List Char := s.map Char.toLower

/-- Case-insensitive "starts with": models both `re.IGNORECASE` anchored word
matches and `definition.lower().startswith(word.lower())`. -/
def startsWithCI (p s : List Char) : Bool :=
  List.isPrefixOf (lowerStr p) (lowerStr s)

/-- The text that follows the (case-insensitively matched) word and any
whitespace run after it: the `word\s*` part of the cleaning regexes. -/
def afterWord (w s : List Char) : List Char :=
  (s.drop w.length).dropWhile isPySpace

/-- Does the text begin with a colon? -/
def startsColon : List Char → Bool
  | [] => false
  | c :: _ => c == ':'

/-- Does the text begin with an ASCII digit? -/
def startsDigit : List Char → Bool
  | [] => false
  | c :: _ => c.isDigit

/-- Drop one leading `.` if present (the `\.?` part of the regexes). -/
def dropDot : List Char → List Char
  | [] => []
  | c :: t => if c = '.' then t else c :: t

/-- Models `re.sub` with pattern `^word\s*:\s*` under IGNORECASE: remove a
leading occurrence of the word followed by optional whitespace and a colon. -/
def subWordColon (w s : List Char) : List Char :=
  if startsWithCI w s && startsColon (afterWord w s) then
    (afterWord w s).tail.dropWhile isPySpace
  else s

/-- Models `re.sub` with pattern `^:\s*`: remove a leading bare colon and the
whitespace after it. -/
def subColon : List Char → List Char
  | [] => []
  | c :: t => if c = ':' then t.dropWhile isPySpace else c :: t

/-- Models `re.sub` with pattern `^word\s*\d*\.?\s*` under IGNORECASE, applied
when the text is known to start with the word: remove the word, optional
whitespace, optional digits, an optional period, and optional whitespace. -/
def subWordNum (w s : List Char) : List Char :=
  (dropDot ((afterWord w s).dropWhile Char.isDigit)).dropWhile isPySpace

/-- Models `re.sub` with pattern `^(\d+\.?\s*)`: remove a leading digit run
with an optional period and trailing whitespace (requires at least one
digit). -/
def subNum : List Char → List Char
  | [] => []
  | c :: t =>
    if c.isDigit then
      (dropDot ((c :: t).dropWhile Char.isDigit)).dropWhile isPySpace
    else c :: t

/-- The `unwanted_prefixes` list of `clean_definition`. -/
def unwantedLeads : List (List Char) :=
  ["definisi:".data, "arti:".data, "makna:".data, "pengertian:".data]

/-- One iteration of the `for prefix in unwanted_prefixes` loop:
`if definition.lower().startswith(p): definition = definition[len(p):].strip()`. -/
def dropLead (d p : List Char) : List Char :=
  if startsWithCI p d then strip (d.drop p.length) else d

/-- The whole `unwanted_prefixes` loop of `clean_definition`. -/
def stripLeads (s : List Char) : List Char :=
  unwantedLeads.foldl dropLead s

/-- The function `clean_definition(word, definition)`: the ordered cleaning
pipeline of the source, each regex substitution followed by a strip exactly
where the code applies it. -/
def clean_definition (word definition : List Char) : List Char :=
  let d1 := strip (subWordColon word definition)
  let d2 := strip (subColon d1)
  let d3 := if startsWithCI word d2 then strip (subWordNum word d2) else d2
  let d4 := strip (subNum d3)
  stripLeads d4

/-- The observable outcome of one `requests.post(.../api/generate, ...)` call:
either an HTTP response (status code plus the optional `response` JSON field),
a `requests.exceptions.Timeout`, or some other exception. -/
inductive AttemptOutcome where
  | http (status : Nat) (responseField : Option (List Char))
  | timeout
  | otherError
deriving DecidableEq

/-- An attempt that does not return from `generate_definition_ollama`:
a non-200 status, a timeout, or another exception. -/
def isFailedAttempt : AttemptOutcome → Bool
  | .http status _ => status != 200
  | .timeout => true
  | .otherError => true

/-- The `for attempt in range(max_retries)` loop body of
`generate_definition_ollama`: on the first 200 response, extract the
`response` field (defaulting to the empty string), strip it, clean it and
return; every failure outcome moves to the next attempt. -/
def attemptLoop (word : List Char) : List AttemptOutcome → Option (List Char)
  | [] => none
  | o :: rest =>
    match o with
    | .http status rf =>
      if status = 200 then some (clean_definition word (strip (rf.getD [])))
      else attemptLoop word rest
    | .timeout => attemptLoop word rest
    | .otherError => attemptLoop word rest

/-- The function `generate_definition_ollama(word)` given the list of outcomes
of its (at most `max_retries`) HTTP attempts; when every attempt fails it
returns the sentinel f-string mentioning `max_retries`, i.e. the length of
the list. -/
def generate_definition_ollama (word : List Char) (attempts : List AttemptOutcome) :
    List Char :=
  match attemptLoop word attempts with
  | some d => d
  | none =>
    ("Error: Failed to generate definition after " ++ toString attempts.length
      ++ " attempts").data

/-- One output record of the batch (`result` dict of `generate_definitions`):
`reference_definition` is `none` when the key is absent from the dict. -/
structure GenRecord where
  word : List Char
  generated_definition : List Char
  reference_definition : Option (List Char)
deriving DecidableEq

/-- Python truthiness of a string: non-empty. -/
def truthy (s : List Char) : Bool := !s.isEmpty

/-- Models the pandas filter `ref_df[ref_df["word"] == word]` followed by
`match.iloc[0]["definition"]`: the definition of the first row whose `word`
column equals the word exactly. -/
def lookupRef (ref_df : List (List Char × List Char)) (word : List Char) :
    Option (List Char) :=
  (ref_df.find? (fun row => row.1 == word)).map (fun row => row.2)

/-- The loop body of `generate_definitions` for one word: generate, look up the
reference definition (when `ref_df is not None`), and build the record; the
`if reference_def:` truthiness test keeps the key only for a non-empty value. -/
def recordFor (attemptsOf : List Char → List AttemptOutcome)
    (ref_df : Option (List (List Char × List Char))) (word : List Char) : GenRecord :=
  let definition := generate_definition_ollama word (attemptsOf word)
  let reference_def : Option (List Char) :=
    match ref_df with
    | some df => lookupRef df word
    | none => none
  { word := word
    generated_definition := definition
    reference_definition :=
      match reference_def with
      | some d => if truthy d then some d else none
      | none => none }

/-- The function `generate_definitions(words_list, ref_df)`: one record per
word, appended in input order. -/
def generate_definitions (attemptsOf : List Char → List AttemptOutcome)
    (words_list : List (List Char))
    (ref_df : Option (List (List Char × List Char))) : List GenRecord :=
  words_list.map (recordFor attemptsOf ref_df)

/-- The observable outcome of a `requests.get` call: an HTTP response with a
parsed body, a `requests.exceptions.ConnectionError`, or another exception. -/
inductive ReqResult (α : Type) where
  | ok (status : Nat) (body : α)
  | connError
  | otherExc
deriving DecidableEq

/-- One model descriptor from `/api/tags`; `name` is `none` when the JSON
object has no `name` key. -/
structure ModelDesc where
  name : Option (List Char)
deriving DecidableEq

/-- The parsed JSON body of `/api/tags`; `models` is `none` when the JSON
object has no `models` key. -/
structure TagsBody where
  models : Option (List ModelDesc)
deriving DecidableEq

/-- The environment of `check_ollama_connection`: the results of its two GET
requests (`/api/version`, then `/api/tags`). -/
structure OllamaEnv where
  versionResp : ReqResult Unit
  tagsResp : ReqResult TagsBody
deriving DecidableEq

/-- The configured model identifier (`MODEL_NAME = "llama3.2:3b"`). -/
def MODEL_NAME : List Char := "llama3.2:3b".data

/-- The list comprehension building `model_names`: each descriptor contributes
its `name` value, defaulting to the empty string when the key is missing, and
the `models` key of the JSON body defaults to the empty list when missing. -/
def modelNames (body : TagsBody) : List (List Char) :=
  (body.models.getD []).map (fun m => m.name.getD [])

/-- The function `check_ollama_connection()`: true only when the version probe
returns 200, the tags request returns 200, and `MODEL_NAME` occurs exactly in
the listed names; any exception from either request yields false. -/
def check_ollama_connection (env : OllamaEnv) : Bool :=
  match env.versionResp with
  | .ok vstatus _ =>
    if vstatus = 200 then
      match env.tagsResp with
      | .ok tstatus tbody =>
        if tstatus = 200 then
          if MODEL_NAME ∈ modelNames tbody then true else false
        else false
      | .connError => false
      | .otherExc => false
    else false
  | .connError => false
  | .otherExc => false

/-- The externally visible steps of `main()`, in order. -/
inductive PipelineEvent where
  | probe
  | loadInputs
  | generateWord (w : List Char)
  | writeOutput
deriving DecidableEq

/-- The environment of `main()`: HTTP results for the probe, the outcome of
`load_data()` (`none` models the `(None, None)` failure return), and the
per-word generation outcomes. -/
structure MainEnv where
  ollama : OllamaEnv
  loadResult : Option (List (List Char) × List (List Char × List Char))
  attemptsOf : List Char → List AttemptOutcome

/-- The function `main()`: probe, then (only if the probe succeeded) load,
generate each word in order, and write; returns the trace of performed steps
together with the rows written to the output file (`none` when no file is
produced). -/
def main (env : MainEnv) : List PipelineEvent × Option (List GenRecord) :=
  if check_ollama_connection env.ollama then
    match env.loadResult with
    | none => ([.probe, .loadInputs], none)
    | some (words_list, ref_df) =>
      let results := generate_definitions env.attemptsOf words_list (some ref_df)
      ([.probe, .loadInputs] ++ words_list.map PipelineEvent.generateWord
        ++ [.writeOutput], some results)
  else ([.probe], none)

/-! ## Helper lemmas about stripping -/

lemma dropWhile_idem (p : Char → Bool) (l : List Char) :
    (l.dropWhile p).dropWhile p = l.dropWhile p := by
  induction l with
  | nil => rfl
  | cons c t ih =>
    by_cases h : p c = true
    · simp [List.dropWhile_cons, h, ih]
    · simp [List.dropWhile_cons, h]

lemma dropWhile_head_not (p : Char → Bool) :
    ∀ (l : List Char) {c : Char} {t : List Char}, l.dropWhile p = c :: t → p c = false := by
  intro l
  induction l with
  | nil => intro c t h; simp [List.dropWhile] at h
  | cons a l ih =>
    intro c t h
    by_cases ha : p a = true
    · rw [List.dropWhile_cons, if_pos ha] at h
      exact ih h
    · rw [List.dropWhile_cons, if_neg ha] at h
      cases h
      simpa using ha

lemma rstrip_pre (x : List Char) : rstrip x <+: x := by
  rw [← List.reverse_suffix, rstrip, List.reverse_reverse]
  exact List.dropWhile_suffix isPySpace

lemma lstrip_eq_self (x : List Char)
    (h : ∀ c t, x = c :: t → isPySpace c = false) : lstrip x = x := by
  cases x with
  | nil => rfl
  | cons c t =>
    have hc := h c t rfl
    rw [lstrip, List.dropWhile_cons, if_neg (by simp [hc])]

lemma lstrip_fix_head (x : List Char) (hx : lstrip x = x) :
    ∀ c t, x = c :: t → isPySpace c = false := by
  intro c t h
  subst h
  rw [lstrip] at hx
  exact dropWhile_head_not isPySpace _ hx

lemma lstrip_idem (x : List Char) : lstrip (lstrip x) = lstrip x := dropWhile_idem _ _

lemma rstrip_idem (x : List Char) : rstrip (rstrip x) = rstrip x := by
  rw [rstrip, rstrip, List.reverse_reverse, dropWhile_idem]

lemma lstrip_rstrip (x : List Char) (h : lstrip x = x) : lstrip (rstrip x) = rstrip x := by
  apply lstrip_eq_self
  intro c t hct
  have hp := rstrip_pre x
  rw [hct] at hp
  obtain ⟨u, hu⟩ := hp
  exact lstrip_fix_head x h c (t ++ u) (by rw [← hu]; simp)

lemma strip_idem (s : List Char) : strip (strip s) = strip s := by
  rw [strip, strip, lstrip_rstrip (lstrip s) (lstrip_idem s)]
  exact rstrip_idem _

lemma foldl_dropLead_fix (ps : List (List Char)) (x : List Char) (hx : strip x = x) :
    strip (List.foldl dropLead x ps) = List.foldl dropLead x ps := by
  induction ps generalizing x with
  | nil => simpa using hx
  | cons p ps ih =>
    rw [List.foldl_cons]
    apply ih
    rw [dropLead]
    by_cases h : startsWithCI p x = true
    · rw [if_pos h]; exact strip_idem _
    · rw [if_neg h]; exact hx

lemma stripLeads_fix (x : List Char) (hx : strip x = x) :
    strip (stripLeads x) = stripLeads x := by
  rw [stripLeads]
  exact foldl_dropLead_fix _ _ hx

lemma clean_stripped (w s : List Char) :
    strip (clean_definition w s) = clean_definition w s := by
  simp only [clean_definition]
  exact stripLeads_fix _ (strip_idem _)

/-! ## No-op lemmas: the cleaning steps leave text alone when their
pattern is absent -/

lemma subWordColon_eq_self (w c : List Char) (h : startsWithCI w c = false) :
    subWordColon w c = c := by
  simp [subWordColon, h]

lemma subColon_eq_self (c : List Char) (h : startsColon c = false) : subColon c = c := by
  cases c with
  | nil => rfl
  | cons a t =>
    have ha : ¬(a = ':') := by simpa [startsColon] using h
    simp [subColon, ha]

lemma subNum_eq_self (c : List Char) (h : startsDigit c = false) : subNum c = c := by
  cases c with
  | nil => rfl
  | cons a t =>
    have ha : ¬(a.isDigit = true) := by simpa [startsDigit] using h
    simp [subNum, ha]

lemma stripLeads_eq_self (c : List Char)
    (h : ∀ p ∈ unwantedLeads, startsWithCI p c = false) : stripLeads c = c := by
  have h1 := h "definisi:".data (by simp [unwantedLeads])
  have h2 := h "arti:".data (by simp [unwantedLeads])
  have h3 := h "makna:".data (by simp [unwantedLeads])
  have h4 := h "pengertian:".data (by simp [unwantedLeads])
  simp [stripLeads, unwantedLeads, List.foldl_cons, List.foldl_nil, dropLead, h1, h2, h3, h4]

/-! ## The cleaning steps only remove material: suffix / infix lemmas -/

lemma strip_infix_self (s : List Char) : strip s <:+: s :=
  (rstrip_pre (lstrip s)).isInfix.trans (List.dropWhile_suffix isPySpace).isInfix

lemma afterWord_suffix_self (w s : List Char) : afterWord w s <:+ s :=
  (List.dropWhile_suffix isPySpace).trans (List.drop_suffix _ s)

lemma dropDot_suffix_self (x : List Char) : dropDot x <:+ x := by
  cases x with
  | nil => exact List.suffix_refl _
  | cons c t =>
    by_cases h : c = '.'
    · simp only [dropDot, if_pos h]
      exact List.tail_suffix (c :: t)
    · simp [dropDot, h]

lemma subWordColon_suffix_self (w s : List Char) : subWordColon w s <:+ s := by
  rw [subWordColon]
  by_cases h : (startsWithCI w s && startsColon (afterWord w s)) = true
  · rw [if_pos h]
    exact (List.dropWhile_suffix isPySpace).trans
      ((List.tail_suffix _).trans (afterWord_suffix_self w s))
  · rw [if_neg h]

lemma subColon_suffix_self (x : List Char) : subColon x <:+ x := by
  cases x with
  | nil => exact List.suffix_refl _
  | cons c t =>
    by_cases h : c = ':'
    · simp only [subColon, if_pos h]
      exact (List.dropWhile_suffix isPySpace).trans (List.tail_suffix (c :: t))
    · simp [subColon, h]

lemma subNum_suffix_self (x : List Char) : subNum x <:+ x := by
  cases x with
  | nil => exact List.suffix_refl _
  | cons c t =>
    by_cases h : c.isDigit = true
    · simp only [subNum, if_pos h]
      exact (List.dropWhile_suffix isPySpace).trans
        ((dropDot_suffix_self _).trans (List.dropWhile_suffix Char.isDigit))
    · simp [subNum, h]

lemma subWordNum_suffix_self (w s : List Char) : subWordNum w s <:+ s := by
  rw [subWordNum]
  exact (List.dropWhile_suffix isPySpace).trans
    ((dropDot_suffix_self _).trans
      ((List.dropWhile_suffix Char.isDigit).trans (afterWord_suffix_self w s)))

lemma dropLead_infix_self (d p : List Char) : dropLead d p <:+: d := by
  rw [dropLead]
  by_cases h : startsWithCI p d = true
  · rw [if_pos h]
    exact (strip_infix_self _).trans (List.drop_suffix _ d).isInfix
  · rw [if_neg h]

lemma foldl_dropLead_infix (ps : List (List Char)) (x : List Char) :
    List.foldl dropLead x ps <:+: x := by
  induction ps generalizing x with
  | nil => exact List.infix_refl _
  | cons p ps ih =>
    rw [List.foldl_cons]
    exact (ih _).trans (dropLead_infix_self x p)

lemma stripLeads_infix_self (x : List Char) : stripLeads x <:+: x := by
  rw [stripLeads]; exact foldl_dropLead_infix _ _

lemma clean_infix_self (w s : List Char) : clean_definition w s <:+: s := by
  simp only [clean_definition]
  refine (stripLeads_infix_self _).trans ?_
  refine ((strip_infix_self _).trans (subNum_suffix_self _).isInfix).trans ?_
  have h2 : strip (subColon (strip (subWordColon w s))) <:+: s :=
    ((strip_infix_self _).trans (subColon_suffix_self _).isInfix).trans
      ((strip_infix_self _).trans (subWordColon_suffix_self w s).isInfix)
  by_cases h : startsWithCI w (strip (subColon (strip (subWordColon w s)))) = true
  · rw [if_pos h]
    exact ((strip_infix_self _).trans (subWordNum_suffix_self _ _).isInfix).trans h2
  · rw [if_neg h]
    exact h2

/-! ## Helper lemmas about the batch orchestrator -/

lemma recordFor_word (attemptsOf : List Char → List AttemptOutcome)
    (ref_df : Option (List (List Char × List Char))) (w : List Char) :
    (recordFor attemptsOf ref_df w).word = w := rfl

lemma genDefs_map_word (attemptsOf : List Char → List AttemptOutcome)
    (ref_df : Option (List (List Char × List Char))) (ws : List (List Char)) :
    (generate_definitions attemptsOf ws ref_df).map GenRecord.word = ws := by
  rw [generate_definitions, List.map_map]
  have : (GenRecord.word ∘ recordFor attemptsOf ref_df) = fun w => w := rfl
  rw [this, List.map_id']

lemma attemptLoop_eq_none (w : List Char) (os : List AttemptOutcome)
    (h : ∀ o ∈ os, isFailedAttempt o = true) : attemptLoop w os = none := by
  induction os with
  | nil => rfl
  | cons o rest ih =>
    have ho := h o (by simp)
    have hrest : ∀ o ∈ rest, isFailedAttempt o = true := fun o hm => h o (by simp [hm])
    cases o with
    | http status rf =>
      have hs : ¬(status = 200) := by
        intro h200
        subst h200
        simp [isFailedAttempt] at ho
      simp [attemptLoop, hs, ih hrest]
    | timeout => simp [attemptLoop, ih hrest]
    | otherError => simp [attemptLoop, ih hrest]

lemma lookupRef_first (rows1 rows2 : List (List Char × List Char)) (w d : List Char)
    (h1 : ∀ r ∈ rows1, r.1 ≠ w) :
    lookupRef (rows1 ++ (w, d) :: rows2) w = some d := by
  induction rows1 with
  | nil =>
    rw [List.nil_append, lookupRef, List.find?_cons_of_pos _ (by simp)]
    rfl
  | cons r rs ih =>
    have hr := h1 r (by simp)
    rw [List.cons_append, lookupRef, List.find?_cons_of_neg _ (by simp [hr])]
    exact ih (fun r hm => h1 r (by simp [hm]))

/-! ## Claim theorems -/

/-- C1 (counterexample to the claim as stated): with the reference table
holding the row `("meja", "")`, the exact-match lookup for `"meja"` succeeds,
yet the `reference_definition` field of the resulting record is absent,
because the truthiness test of the orchestrator drops an empty reference
definition. -/
theorem C1_counterexample :
    (lookupRef [("meja".data, [])] "meja".data).isSome = true ∧
      (generate_definitions (fun _ => []) ["meja".data]
        (some [("meja".data, [])])).map GenRecord.reference_definition = [none] := by
  decide

/-- C1 (amended): the `reference_definition` field of a record equals a value
`d` exactly when the exact-match lookup of the word of that record in the
reference table returns `d` and `d` is non-empty; in particular the field is
absent whenever no match exists. -/
theorem C1_reference_field (attemptsOf : List Char → List AttemptOutcome)
    (ref_df : List (List Char × List Char)) (words : List (List Char))
    (rec : GenRecord)
    (hrec : rec ∈ generate_definitions attemptsOf words (some ref_df))
    (d : List Char) :
    rec.reference_definition = some d ↔ lookupRef ref_df rec.word = some d ∧ d ≠ [] := by
  simp only [generate_definitions, List.mem_map] at hrec
  obtain ⟨w, hw, rfl⟩ := hrec
  rw [recordFor_word]
  simp only [recordFor]
  cases hl : lookupRef ref_df w with
  | none => simp [hl]
  | some v =>
    by_cases hv : v = []
    · subst hv
      simp [hl, truthy]
    · have ht : truthy v = true := by
        simp [truthy, List.isEmpty_iff, hv]
      simp only [hl, ht, if_pos]
      constructor
      · rintro h
        cases h
        exact ⟨rfl, hv⟩
      · rintro ⟨h, _⟩
        cases h
        rfl

/-- Witness for C1: the reference table holds `("meja", "perabot datar
berkaki")`, the word list holds `"meja"`, and the reference field of the
resulting record equals `"perabot datar berkaki"`. -/
theorem C1_reference_field_witness :
    (recordFor (fun _ => []) (some [("meja".data, "perabot datar berkaki".data)])
        "meja".data).reference_definition = some "perabot datar berkaki".data :=
  (C1_reference_field (fun _ => []) [("meja".data, "perabot datar berkaki".data)]
      ["meja".data]
      (recordFor (fun _ => []) (some [("meja".data, "perabot datar berkaki".data)])
        "meja".data)
      (by simp [generate_definitions])
      "perabot datar berkaki".data).mpr (by decide)

/-- C2 (counterexample to the claim as stated): cleaning is not idempotent on
every input; for the word `"a"` and the raw text `"a a: b"` one pass yields
`"a: b"`, whose second pass yields `"b"`. -/
theorem C2_counterexample :
    clean_definition "a".data (clean_definition "a".data "a a: b".data) ≠
      clean_definition "a".data "a a: b".data := by
  decide

/-- C2 (amended): cleaning is idempotent whenever its output does not again
begin with the word (case-insensitively), a colon, a digit, or one of the
unwanted lead-in phrases — in particular for already-clean text. -/
theorem C2_clean_idem_conditional (w s : List Char)
    (h1 : startsWithCI w (clean_definition w s) = false)
    (h2 : startsColon (clean_definition w s) = false)
    (h3 : startsDigit (clean_definition w s) = false)
    (h4 : ∀ p ∈ unwantedLeads, startsWithCI p (clean_definition w s) = false) :
    clean_definition w (clean_definition w s) = clean_definition w s := by
  have hstrip := clean_stripped w s
  conv_lhs => rw [clean_definition]
  rw [subWordColon_eq_self w _ h1, hstrip, subColon_eq_self _ h2, hstrip, h1]
  simp only [Bool.false_eq_true, if_false]
  rw [subNum_eq_self _ h3, hstrip]
  exact stripLeads_eq_self _ h4

/-- Witness for C2: the already-clean output of
`clean("komputer", "komputer: alat untuk mengolah data")` is a fixed point. -/
theorem C2_clean_idem_conditional_witness :
    clean_definition "komputer".data
        (clean_definition "komputer".data "komputer: alat untuk mengolah data".data) =
      clean_definition "komputer".data "komputer: alat untuk mengolah data".data :=
  C2_clean_idem_conditional "komputer".data "komputer: alat untuk mengolah data".data
    (by decide) (by decide) (by decide) (by decide)

/-- C3: for every non-empty word list the batch produces exactly one record
per input word and the output order equals the input order. -/
theorem C3_batch_shape (attemptsOf : List Char → List AttemptOutcome)
    (ref_df : Option (List (List Char × List Char))) (words : List (List Char))
    (_hne : words ≠ []) :
    (generate_definitions attemptsOf words ref_df).length = words.length ∧
      (generate_definitions attemptsOf words ref_df).map GenRecord.word = words :=
  ⟨by simp [generate_definitions], genDefs_map_word attemptsOf ref_df words⟩

/-- Witness for C3: a concrete two-word batch. -/
theorem C3_batch_shape_witness :
    (generate_definitions (fun _ => []) ["meja".data, "kota".data] none).length = 2 ∧
      (generate_definitions (fun _ => []) ["meja".data, "kota".data] none).map
        GenRecord.word = ["meja".data, "kota".data] :=
  C3_batch_shape (fun _ => []) none ["meja".data, "kota".data] (by decide)

/-- C4: when all three generation attempts fail (non-200 status, timeout, or
other exception), the requester returns the literal sentinel string rather
than raising, and the batch still yields one record per word in order. -/
theorem C4_retry_sentinel (w : List Char) (os : List AttemptOutcome)
    (hlen : os.length = 3) (hfail : ∀ o ∈ os, isFailedAttempt o = true)
    (attemptsOf : List Char → List AttemptOutcome)
    (rest : List (List Char)) (ref_df : Option (List (List Char × List Char))) :
    generate_definition_ollama w os =
        "Error: Failed to generate definition after 3 attempts".data ∧
      (generate_definitions attemptsOf (w :: rest) ref_df).map GenRecord.word =
        w :: rest := by
  constructor
  · rw [generate_definition_ollama, attemptLoop_eq_none w os hfail, hlen]
    decide
  · exact genDefs_map_word attemptsOf ref_df (w :: rest)

/-- Witness for C4: three timeouts produce the sentinel, and the batch over
`["meja", "kota"]` still yields records for both words in order. -/
theorem C4_retry_sentinel_witness :
    generate_definition_ollama "meja".data
        [AttemptOutcome.timeout, AttemptOutcome.timeout, AttemptOutcome.timeout] =
        "Error: Failed to generate definition after 3 attempts".data ∧
      (generate_definitions
          (fun _ => [AttemptOutcome.timeout, AttemptOutcome.timeout,
            AttemptOutcome.timeout])
          ("meja".data :: ["kota".data]) none).map GenRecord.word =
        "meja".data :: ["kota".data] :=
  C4_retry_sentinel "meja".data
    [AttemptOutcome.timeout, AttemptOutcome.timeout, AttemptOutcome.timeout]
    (by decide) (by decide)
    (fun _ => [AttemptOutcome.timeout, AttemptOutcome.timeout, AttemptOutcome.timeout])
    ["kota".data] none

/-- C5: the connectivity probe returns true exactly when the version endpoint
returned 200, the model listing returned 200, and the configured model name
occurs exactly among the listed names; in every other case — including any
exception from either request — it returns false. -/
theorem C5_check_iff (env : OllamaEnv) :
    check_ollama_connection env = true ↔
      env.versionResp = ReqResult.ok 200 () ∧
        ∃ tbody, env.tagsResp = ReqResult.ok 200 tbody ∧
          MODEL_NAME ∈ modelNames tbody := by
  obtain ⟨v, t⟩ := env
  cases v with
  | connError => simp [check_ollama_connection]
  | otherExc => simp [check_ollama_connection]
  | ok vs u =>
    cases u
    by_cases hv : vs = 200
    · subst hv
      cases t with
      | connError => simp [check_ollama_connection]
      | otherExc => simp [check_ollama_connection]
      | ok ts tbody =>
        by_cases ht : ts = 200
        · subst ht
          by_cases hm : MODEL_NAME ∈ modelNames tbody
          · simp [check_ollama_connection, hm]
          · simp [check_ollama_connection, hm]
        · simp [check_ollama_connection, ht]
    · simp [check_ollama_connection, hv]

/-- C6: when several reference rows share the same word, the orchestrator
populates the record with the definition of the first matching row. -/
theorem C6_first_match_wins (attemptsOf : List Char → List AttemptOutcome)
    (rows1 rows2 : List (List Char × List Char)) (w d : List Char)
    (h1 : ∀ r ∈ rows1, r.1 ≠ w) (hd : d ≠ [])
    (words : List (List Char)) (rec : GenRecord)
    (hrec : rec ∈ generate_definitions attemptsOf words
      (some (rows1 ++ (w, d) :: rows2)))
    (hw : rec.word = w) :
    rec.reference_definition = some d := by
  simp only [generate_definitions, List.mem_map] at hrec
  obtain ⟨w0, hw0, rfl⟩ := hrec
  rw [recordFor_word] at hw
  subst hw
  have ht : truthy d = true := by simp [truthy, List.isEmpty_iff, hd]
  simp [recordFor, lookupRef_first rows1 rows2 w0 d h1, ht]

/-- Witness for C6: with rows `("kursi", …)`, `("meja", "perabot datar
berkaki")`, `("meja", "second")`, the record for `"meja"` carries the first
matching definition. -/
theorem C6_first_match_wins_witness :
    (recordFor (fun _ => [])
        (some ([("kursi".data, "tempat duduk".data)] ++
          ("meja".data, "perabot datar berkaki".data) :: [("meja".data, "second".data)]))
        "meja".data).reference_definition = some "perabot datar berkaki".data :=
  C6_first_match_wins (fun _ => [])
    [("kursi".data, "tempat duduk".data)] [("meja".data, "second".data)]
    "meja".data "perabot datar berkaki".data
    (by decide) (by decide)
    ["meja".data]
    (recordFor (fun _ => [])
      (some ([("kursi".data, "tempat duduk".data)] ++
        ("meja".data, "perabot datar berkaki".data) :: [("meja".data, "second".data)]))
      "meja".data)
    (by simp [generate_definitions]) rfl

/-- C7: `clean("kudus", "Kudus 2. suci") = "suci"`: the cleaner strips a
leading occurrence of the word case-insensitively together with the following
numeral/period pattern. -/
theorem C7_kudus_clean :
    clean_definition "kudus".data "Kudus 2. suci".data = "suci".data := by
  decide

/-- C8: if the connectivity probe fails, `main` stops immediately: the trace
holds only the probe, so no input loading, generation, or output write
happens, and no output rows are produced. -/
theorem C8_abort_on_probe_failure (env : MainEnv)
    (h : check_ollama_connection env.ollama = false) :
    main env = ([PipelineEvent.probe], none) := by
  simp [main, h]

/-- Witness for C8: an unreachable server (connection errors on both
requests) yields a probe-only trace and no output. -/
theorem C8_abort_on_probe_failure_witness :
    main ⟨⟨ReqResult.connError, ReqResult.connError⟩, none, fun _ => []⟩ =
      ([PipelineEvent.probe], none) :=
  C8_abort_on_probe_failure ⟨⟨ReqResult.connError, ReqResult.connError⟩, none, fun _ => []⟩
    (by decide)

/-- C9: the cleaner only deletes material: its output is a contiguous
substring of its input, and in particular never longer. -/
theorem C9_clean_substring (w s : List Char) :
    clean_definition w s <:+: s ∧ (clean_definition w s).length ≤ s.length :=
  ⟨clean_infix_self w s, (clean_infix_self w s).length_le⟩

/-- C10: a 200 tags response whose JSON lacks the `models` field, or whose
descriptors lack the `name` field, makes the probe report the model as not
found and return false instead of raising. -/
theorem C10_missing_json_fields (tbody : TagsBody)
    (h : tbody.models = none ∨ ∀ m ∈ tbody.models.getD [], m.name = none) :
    check_ollama_connection ⟨ReqResult.ok 200 (), ReqResult.ok 200 tbody⟩ = false := by
  have hm : MODEL_NAME ∉ modelNames tbody := by
    intro hmem
    rw [modelNames] at hmem
    cases h with
    | inl h0 =>
      rw [h0] at hmem
      simp at hmem
    | inr h0 =>
      rw [List.mem_map] at hmem
      obtain ⟨m, hm0, hname⟩ := hmem
      rw [h0 m hm0] at hname
      simp only [Option.getD_none] at hname
      exact absurd hname (by decide)
  simp [check_ollama_connection, hm]

/-- Witness for C10: both endpoints answer 200 but the tags body has no
`models` key; the probe returns false. -/
theorem C10_missing_json_fields_witness :
    check_ollama_connection ⟨ReqResult.ok 200 (), ReqResult.ok 200 ⟨none⟩⟩ = false :=
  C10_missing_json_fields ⟨none⟩ (Or.inl rfl)

end OllamaGen
